import Mathlib

/-!
Verification model of the puppeteer-monitor repository (WSL browser monitor).

The definitions below are shallow embeddings of the JavaScript sources:
  * src/os/wsl/chrome.mjs   — Chrome discovery, launch, port proxy, managed kill
  * src/monitor/join-mode.mjs / open-mode.mjs — connect, page filters, cleanup
  * src/monitor/interactive-mode.mjs — Chrome instance selection prompt

Strings from the source are modelled as `List Char` where substring matching
matters (JavaScript `String.includes`, `startsWith`, regexes of literals), and
as Lean `String` where only equality matters.  Asynchronous effects (process
kills, netsh invocations, sleeps, process exit) are modelled as explicit
action lists so that ordering and gating properties can be stated.
-/

/-- JavaScript `hay.startsWith(needle)` on character lists:
`startsWith hay needle` is true when `needle` is a prefix of `hay`. -/
def startsWith : List Char → List Char → Bool
  | _, [] => true
  | [], _ :: _ => false
  | h :: t, h' :: t' => h == h' && startsWith t t'

/-- JavaScript `hay.includes(needle)` on character lists:
true when `needle` occurs contiguously inside `hay`. -/
def containsSub (needle : List Char) : List Char → Bool
  | [] => needle.isEmpty
  | h :: t => startsWith (h :: t) needle || containsSub needle t

theorem startsWith_nil_right (hay : List Char) : startsWith hay [] = true := by
  cases hay <;> rfl

theorem containsSub_nil_left (hay : List Char) : containsSub [] hay = true := by
  cases hay with
  | nil => rfl
  | cons h t => simp [containsSub, startsWith_nil_right]

theorem containsSub_of_startsWith (hay needle : List Char)
    (h : startsWith hay needle = true) : containsSub needle hay = true := by
  cases hay with
  | nil =>
    cases needle with
    | nil => rfl
    | cons a b => simp [startsWith] at h
  | cons x t => simp [containsSub, h]

theorem containsSub_cons_of_tail (needle : List Char) (h : Char) (t : List Char)
    (hc : containsSub needle t = true) : containsSub needle (h :: t) = true := by
  simp [containsSub, hc]

/-- If `hay` starts with a cons needle, the needle head is an element of `hay`. -/
theorem head_mem_of_startsWith (hay : List Char) (m : Char) (ms : List Char)
    (h : startsWith hay (m :: ms) = true) : m ∈ hay := by
  cases hay with
  | nil => simp [startsWith] at h
  | cons x t =>
    simp only [startsWith, Bool.and_eq_true, beq_iff_eq] at h
    simp [h.1]

/-- If a cons needle occurs in `hay`, its head character is an element of `hay`. -/
theorem head_mem_of_containsSub (m : Char) (ms hay : List Char)
    (h : containsSub (m :: ms) hay = true) : m ∈ hay := by
  induction hay with
  | nil => simp [containsSub, List.isEmpty] at h
  | cons x t ih =>
    simp only [containsSub, Bool.or_eq_true] at h
    cases h with
    | inl h => exact head_mem_of_startsWith _ _ _ h
    | inr h => exact List.mem_cons_of_mem _ (ih h)

/-- A prefix match against `xs ++ ys` either stays inside `xs` or forces some
character of the needle to lie in `ys`. -/
theorem startsWith_append_elim (xs ys needle : List Char)
    (h : startsWith (xs ++ ys) needle = true) :
    startsWith xs needle = true ∨ ∃ c ∈ ys, c ∈ needle := by
  induction xs generalizing needle with
  | nil =>
    cases needle with
    | nil => exact Or.inl rfl
    | cons m ms =>
      exact Or.inr ⟨m, head_mem_of_startsWith _ _ _ h, List.mem_cons_self _ _⟩
  | cons x xs' ih =>
    cases needle with
    | nil => exact Or.inl (startsWith_nil_right _)
    | cons m ms =>
      simp only [List.cons_append, startsWith, Bool.and_eq_true] at h
      cases ih ms h.2 with
      | inl hl =>
        left
        simp [startsWith, h.1, hl]
      | inr hr =>
        obtain ⟨c, hcy, hcm⟩ := hr
        exact Or.inr ⟨c, hcy, List.mem_cons_of_mem _ hcm⟩

/-- An occurrence of `needle` in `xs ++ ys` either lies inside `xs` or forces
some character of `needle` to lie in `ys`. -/
theorem containsSub_append_elim (xs ys needle : List Char)
    (h : containsSub needle (xs ++ ys) = true) :
    containsSub needle xs = true ∨ ∃ c ∈ ys, c ∈ needle := by
  induction xs with
  | nil =>
    cases needle with
    | nil => exact Or.inl (containsSub_nil_left _)
    | cons m ms =>
      exact Or.inr ⟨m, head_mem_of_containsSub _ _ _ h, List.mem_cons_self _ _⟩
  | cons x xs' ih =>
    simp only [List.cons_append, containsSub, Bool.or_eq_true] at h
    cases h with
    | inl h =>
      cases startsWith_append_elim (x :: xs') ys needle h with
      | inl hl => exact Or.inl (containsSub_of_startsWith _ _ hl)
      | inr hr => exact Or.inr hr
    | inr h =>
      cases ih h with
      | inl hl => exact Or.inl (containsSub_cons_of_tail _ _ _ hl)
      | inr hr => exact Or.inr hr

theorem startsWith_append_left (xs ys needle : List Char)
    (h : startsWith xs needle = true) : startsWith (xs ++ ys) needle = true := by
  induction xs generalizing needle with
  | nil =>
    cases needle with
    | nil => exact startsWith_nil_right _
    | cons m ms => simp [startsWith] at h
  | cons x xs' ih =>
    cases needle with
    | nil => exact startsWith_nil_right _
    | cons m ms =>
      simp only [startsWith, Bool.and_eq_true] at h
      simp [List.cons_append, startsWith, h.1, ih ms h.2]

/-- Occurrence via `containsSub` is preserved when the haystack is extended on the right. -/
theorem containsSub_append_left (xs ys needle : List Char)
    (h : containsSub needle xs = true) : containsSub needle (xs ++ ys) = true := by
  induction xs with
  | nil =>
    cases needle with
    | nil => exact containsSub_nil_left _
    | cons m ms => simp [containsSub, List.isEmpty] at h
  | cons x xs' ih =>
    simp only [containsSub, Bool.or_eq_true] at h
    cases h with
    | inl h =>
      exact containsSub_of_startsWith _ _ (startsWith_append_left _ _ _ h)
    | inr h =>
      exact containsSub_cons_of_tail _ _ _ (ih h)

/-!
## Chrome instance model (src/os/wsl/chrome.mjs, scanChromeInstances result)
-/

/-- One discovered Chrome instance, as produced by `scanChromeInstances`:
debug port, `--user-data-dir` profile path, and `--remote-debugging-address`
bind address (default `127.0.0.1`). -/
structure ChromeInstance where
  port : Nat
  profile : List Char
  bindAddress : List Char
  deriving DecidableEq, Repr

/-!
## findFreeDebugPort (chrome.mjs lines 307-315)

```js
export function findFreeDebugPort(instances, startPort = 9222) {
  const usedPorts = new Set(instances.map(i => i.port));
  for (let port = startPort; port < startPort + 100; port++) {
    if (!usedPorts.has(port)) { return port; }
  }
  return startPort;
}
```
-/

/-- The scan loop: try `fuel` consecutive ports starting at `p`, returning the
first one not in `used`. -/
def scanPorts (used : List Nat) : Nat → Nat → Option Nat
  | _, 0 => none
  | p, fuel + 1 => if used.contains p then scanPorts used (p + 1) fuel else some p

/-- Embedding of `findFreeDebugPort` from chrome.mjs: linear scan of 100 ports from
`startPort`, falling back to `startPort` itself when all are claimed. -/
def findFreeDebugPort (instances : List ChromeInstance) (startPort : Nat := 9222) : Nat :=
  match scanPorts (instances.map (·.port)) startPort 100 with
  | some p => p
  | none => startPort

theorem scanPorts_some_bounds (used : List Nat) (p fuel q : Nat)
    (h : scanPorts used p fuel = some q) : p ≤ q ∧ q < p + fuel := by
  induction fuel generalizing p with
  | zero => simp [scanPorts] at h
  | succ n ih =>
    rw [scanPorts] at h
    by_cases hc : used.contains p = true
    · rw [if_pos hc] at h
      obtain ⟨h1, h2⟩ := ih (p + 1) h
      omega
    · rw [if_neg hc] at h
      cases h
      omega

theorem scanPorts_some_free (used : List Nat) (p fuel q : Nat)
    (h : scanPorts used p fuel = some q) : used.contains q = false := by
  induction fuel generalizing p with
  | zero => simp [scanPorts] at h
  | succ n ih =>
    rw [scanPorts] at h
    by_cases hc : used.contains p = true
    · rw [if_pos hc] at h
      exact ih (p + 1) h
    · rw [if_neg hc] at h
      cases h
      exact Bool.eq_false_iff.mpr (fun hcq => hc hcq)

theorem scanPorts_some_min (used : List Nat) (p fuel q r : Nat)
    (h : scanPorts used p fuel = some q) (hr1 : p ≤ r) (hr2 : r < q) :
    used.contains r = true := by
  induction fuel generalizing p with
  | zero => simp [scanPorts] at h
  | succ n ih =>
    rw [scanPorts] at h
    by_cases hc : used.contains p = true
    · rw [if_pos hc] at h
      rcases Nat.eq_or_lt_of_le hr1 with heq | hlt
      · exact heq ▸ hc
      · exact ih (p + 1) h hlt
    · rw [if_neg hc] at h
      cases h
      omega

theorem scanPorts_none_all_used (used : List Nat) (p fuel r : Nat)
    (h : scanPorts used p fuel = none) (hr1 : p ≤ r) (hr2 : r < p + fuel) :
    used.contains r = true := by
  induction fuel generalizing p with
  | zero => omega
  | succ n ih =>
    rw [scanPorts] at h
    by_cases hc : used.contains p = true
    · rw [if_pos hc] at h
      rcases Nat.eq_or_lt_of_le hr1 with heq | hlt
      · exact heq ▸ hc
      · exact ih (p + 1) h hlt (by omega)
    · rw [if_neg hc] at h
      cases h

/-- Claim C8: `findFreeDebugPort` scans linearly from `startPort`, returns the
first port not claimed by a discovered instance, falls back to `startPort`
after 100 unsuccessful attempts, and its result always lies in
`[startPort, startPort + 99]`. -/
theorem findFreeDebugPort_spec (instances : List ChromeInstance) (startPort : Nat) :
    (startPort ≤ findFreeDebugPort instances startPort ∧
        findFreeDebugPort instances startPort ≤ startPort + 99) ∧
      (((instances.map (·.port)).contains (findFreeDebugPort instances startPort) = false ∧
          ∀ q, startPort ≤ q → q < findFreeDebugPort instances startPort →
            (instances.map (·.port)).contains q = true) ∨
        (findFreeDebugPort instances startPort = startPort ∧
          ∀ q, startPort ≤ q → q < startPort + 100 →
            (instances.map (·.port)).contains q = true)) := by
  cases hscan : scanPorts (instances.map (·.port)) startPort 100 with
  | some p =>
    have hr : findFreeDebugPort instances startPort = p := by
      unfold findFreeDebugPort
      rw [hscan]
    obtain ⟨h1, h2⟩ := scanPorts_some_bounds _ startPort 100 p hscan
    rw [hr]
    refine ⟨⟨by omega, by omega⟩, Or.inl ⟨?_, ?_⟩⟩
    · exact scanPorts_some_free _ startPort 100 p hscan
    · intro q hq1 hq2
      exact scanPorts_some_min _ startPort 100 p q hscan hq1 hq2
  | none =>
    have hr : findFreeDebugPort instances startPort = startPort := by
      unfold findFreeDebugPort
      rw [hscan]
    rw [hr]
    refine ⟨⟨by omega, by omega⟩, Or.inr ⟨rfl, ?_⟩⟩
    intro q hq1 hq2
    exact scanPorts_none_all_used _ startPort 100 q hscan hq1 hq2

/-- Witness for C8 at a concrete input: one instance occupying 9222 pushes the
result to 9223, which is within range and minimal. -/
theorem findFreeDebugPort_spec_witness :
    (9222 ≤ findFreeDebugPort [⟨9222, [], []⟩] 9222 ∧
        findFreeDebugPort [⟨9222, [], []⟩] 9222 ≤ 9222 + 99) ∧
      (([9222].contains (findFreeDebugPort [⟨9222, [], []⟩] 9222) = false ∧
          ∀ q, 9222 ≤ q → q < findFreeDebugPort [⟨9222, [], []⟩] 9222 →
            [9222].contains q = true) ∨
        (findFreeDebugPort [⟨9222, [], []⟩] 9222 = 9222 ∧
          ∀ q, 9222 ≤ q → q < 9222 + 100 → [9222].contains q = true)) :=
  findFreeDebugPort_spec [⟨9222, [], []⟩] 9222

/-!
## killPuppeteerMonitorChromes (chrome.mjs lines 413-479)

PowerShell path: `Get-WmiObject Win32_Process -Filter name='chrome.exe'`,
then for each process, kill it only when
`$chrome.CommandLine -match 'browsermonitor|puppeteer-monitor'` (and `break`
after the first kill).

wmic path: `wmic.exe process where "name='chrome.exe'" get processid,commandline`
produces one text line per process: the CommandLine column followed by
whitespace padding and the decimal ProcessId.  Blank lines are dropped, the
header line (containing both `CommandLine` and `ProcessId`) is skipped, and a
line is selected only when it contains `browsermonitor` or
`puppeteer-monitor`; the pid is the trailing digit run and the first
collected pid is killed with `taskkill /PID <pid> /T /F`.
-/

/-- The system's profile marker, new format. -/
def markerB : List Char := "browsermonitor".toList

/-- The system's profile marker, legacy format. -/
def markerP : List Char := "puppeteer-monitor".toList

/-- Test `line.includes('browsermonitor') || line.includes('puppeteer-monitor')`. -/
def markerLine (l : List Char) : Bool :=
  containsSub markerB l || containsSub markerP l

/-- The wmic header line test:
`line.includes('CommandLine') && line.includes('ProcessId')`. -/
def isWmicHeaderLine (l : List Char) : Bool :=
  containsSub "CommandLine".toList l && containsSub "ProcessId".toList l

/-- Test whether `line.trim()` is truthy, i.e. the line has a non-whitespace character. -/
def isNonBlankLine (l : List Char) : Bool :=
  l.any (fun c => !c.isWhitespace)

/-- The pid extraction regex `/(\d+)\s*$/`: the trailing run of digits, after
ignoring trailing whitespace.  `none` when the line does not end in digits. -/
def trailingPid (l : List Char) : Option (List Char) :=
  let ds := (l.reverse.dropWhile (fun c => c.isWhitespace)).takeWhile (fun c => c.isDigit)
  if ds.isEmpty then none else some ds.reverse

/-- The wmic code path of `killPuppeteerMonitorChromes`: from the raw output
lines, the pid that gets `taskkill /T /F` (the first collected one), if any. -/
def wmicKillTarget (lines : List (List Char)) : Option (List Char) :=
  (((((lines.filter isNonBlankLine).filter
      (fun l => !isWmicHeaderLine l)).filter markerLine).filterMap trailingPid)).head?

/-- A Windows process as seen by `Get-WmiObject Win32_Process`. -/
structure WinProcess where
  processId : Nat
  commandLine : List Char
  deriving DecidableEq, Repr

/-- Test `$chrome.CommandLine -match 'browsermonitor|puppeteer-monitor'` — an
alternation of two literal markers under PowerShell's `-match`, which is
case-insensitive by default: a substring test for either (all-lowercase)
marker on the lowercased command line. -/
def psMarkerMatch (p : WinProcess) : Bool :=
  containsSub markerB (p.commandLine.map Char.toLower) ||
    containsSub markerP (p.commandLine.map Char.toLower)

/-- The PowerShell code path of `killPuppeteerMonitorChromes`: the process
that receives `Stop-Process` (the loop breaks after the first match). -/
def psKillTarget (procs : List WinProcess) : Option WinProcess :=
  procs.find? psMarkerMatch

theorem markerB_no_space_digit : ∀ c ∈ markerB, ¬(c = ' ' ∨ c.isDigit = true) := by
  decide

theorem markerP_no_space_digit : ∀ c ∈ markerP, ¬(c = ' ' ∨ c.isDigit = true) := by
  decide

/-- A wmic output line is its process's command line followed by padding and
the decimal pid; since both markers contain neither spaces nor digits, the
marker test on the whole line agrees with the marker test on the command line
alone. -/
theorem markerLine_append_pid (cmd pidPart : List Char)
    (hp : ∀ c ∈ pidPart, c = ' ' ∨ c.isDigit = true) :
    markerLine (cmd ++ pidPart) = markerLine cmd := by
  apply Bool.eq_iff_iff.mpr
  constructor
  · intro h
    rw [markerLine, Bool.or_eq_true] at h
    rw [markerLine, Bool.or_eq_true]
    cases h with
    | inl h =>
      cases containsSub_append_elim cmd pidPart markerB h with
      | inl hl => exact Or.inl hl
      | inr hr =>
        obtain ⟨c, hcp, hcm⟩ := hr
        exact absurd (hp c hcp) (markerB_no_space_digit c hcm)
    | inr h =>
      cases containsSub_append_elim cmd pidPart markerP h with
      | inl hl => exact Or.inr hl
      | inr hr =>
        obtain ⟨c, hcp, hcm⟩ := hr
        exact absurd (hp c hcp) (markerP_no_space_digit c hcm)
  · intro h
    rw [markerLine, Bool.or_eq_true] at h
    rw [markerLine, Bool.or_eq_true]
    cases h with
    | inl h => exact Or.inl (containsSub_append_left _ _ _ h)
    | inr h => exact Or.inr (containsSub_append_left _ _ _ h)

/-- Claim C1: `killPuppeteerMonitorChromes` only ever selects for termination
(a) in the PowerShell path, a process whose command line contains one of the
profile markers up to letter case (PowerShell `-match` is case-insensitive),
and (b) in the wmic path, a pid taken from an output line containing a
marker — and a line whose command-line part lacks the marker cannot acquire
one from its whitespace-and-digits pid suffix. -/
theorem killPuppeteerMonitorChromes_safety :
    (∀ (procs : List WinProcess) (p : WinProcess), psKillTarget procs = some p →
        containsSub markerB (p.commandLine.map Char.toLower) = true ∨
          containsSub markerP (p.commandLine.map Char.toLower) = true) ∧
    (∀ (lines : List (List Char)) (pid : List Char), wmicKillTarget lines = some pid →
        ∃ l ∈ lines, markerLine l = true ∧ trailingPid l = some pid) ∧
    (∀ (cmd pidPart : List Char), (∀ c ∈ pidPart, c = ' ' ∨ c.isDigit = true) →
        markerLine (cmd ++ pidPart) = markerLine cmd) := by
  refine ⟨?_, ?_, markerLine_append_pid⟩
  · intro procs p h
    have := List.find?_some h
    rw [psMarkerMatch, Bool.or_eq_true] at this
    exact this
  · intro lines pid h
    have hmem : pid ∈ (((lines.filter isNonBlankLine).filter
        (fun l => !isWmicHeaderLine l)).filter markerLine).filterMap trailingPid := by
      rw [wmicKillTarget] at h
      exact List.mem_of_mem_head? (by simpa using h)
    rw [List.mem_filterMap] at hmem
    obtain ⟨l, hl, hpid⟩ := hmem
    rw [List.mem_filter] at hl
    obtain ⟨hl', hmark⟩ := hl
    rw [List.mem_filter] at hl'
    obtain ⟨hl'', _⟩ := hl'
    rw [List.mem_filter] at hl''
    exact ⟨l, hl''.1, hmark, hpid⟩

/-- Witness for C1 at concrete inputs: a chrome process launched with a
mixed-case BrowserMonitor profile path is selected by the PowerShell path,
and its lowercased command line indeed contains a marker. -/
theorem killPuppeteerMonitorChromes_safety_witness :
    containsSub markerB
        ("chrome.exe --user-data-dir=C:/U/BrowserMonitor/p1".toList.map Char.toLower) =
        true ∨
      containsSub markerP
        ("chrome.exe --user-data-dir=C:/U/BrowserMonitor/p1".toList.map Char.toLower) =
        true :=
  killPuppeteerMonitorChromes_safety.1
    [⟨42, "chrome.exe --user-data-dir=C:/U/BrowserMonitor/p1".toList⟩]
    ⟨42, "chrome.exe --user-data-dir=C:/U/BrowserMonitor/p1".toList⟩
    (by decide)

/-!
## findProjectChrome (chrome.mjs lines 264-298)

```js
export function findProjectChrome(instances, projectDir) {
  if (!instances || instances.length === 0) return { found: false, instance: null, matchType: 'none' };
  const { projectName, profileId: expectedProfileId } = getProfileIdFromProjectDir(projectDir);
  for (const inst of instances) {
    const instProfile = inst.profile.toLowerCase();
    if (instProfile.includes('browsermonitor') && instProfile.includes(expectedProfileId))
      return { found: true, instance: inst, matchType: 'exact' };
    if (instProfile.includes('puppeteer-monitor') && instProfile.includes(expectedProfileId))
      return { found: true, instance: inst, matchType: 'exact' };
    if (instProfile.includes(projectName.toLowerCase()) &&
        (instProfile.includes('.puppeteer-profile') || instProfile.includes('browsermonitor') ||
         instProfile.includes('puppeteer-monitor')))
      return { found: true, instance: inst, matchType: 'legacy' };
  }
  const accessibleInst = instances.find(i => i.bindAddress === '0.0.0.0');
  if (accessibleInst) return { found: false, instance: accessibleInst, matchType: 'accessible' };
  return { found: false, instance: instances[0], matchType: 'first' };
}
```

The profile-id derivation `getProfileIdFromProjectDir` (utils/profile-id.mjs)
only feeds the two strings `projectName` and `profileId` into this logic, so
they are taken as parameters here.
-/

/-- Result record of `findProjectChrome` (the source field `instance` is a
Lean keyword and is called `inst` here). -/
structure ProjectMatch where
  found : Bool
  inst : Option ChromeInstance
  matchType : String
  deriving DecidableEq, Repr

/-- JavaScript `s.toLowerCase()`. -/
def lowerChars (l : List Char) : List Char := l.map Char.toLower

/-- The per-instance body of the `for` loop in `findProjectChrome`: the tier
this single instance matches, with the exact checks before the legacy check. -/
def matchTier (projectName expectedProfileId : List Char) (inst : ChromeInstance) :
    Option String :=
  let p := lowerChars inst.profile
  if containsSub markerB p && containsSub expectedProfileId p then some "exact"
  else if containsSub markerP p && containsSub expectedProfileId p then some "exact"
  else if containsSub (lowerChars projectName) p &&
      (containsSub ".puppeteer-profile".toList p || containsSub markerB p ||
        containsSub markerP p) then some "legacy"
  else none

/-- The `for` loop of `findProjectChrome`: first instance, in list order,
matching the exact-or-legacy tier check, together with its tier. -/
def findTierMatch (projectName expectedProfileId : List Char) :
    List ChromeInstance → Option (ChromeInstance × String)
  | [] => none
  | i :: rest =>
    match matchTier projectName expectedProfileId i with
    | some t => some (i, t)
    | none => findTierMatch projectName expectedProfileId rest

/-- Embedding of `findProjectChrome` from chrome.mjs, with the profile-id derivation
abstracted into the `projectName` / `expectedProfileId` parameters. -/
def findProjectChrome (instances : List ChromeInstance)
    (projectName expectedProfileId : List Char) : ProjectMatch :=
  match instances with
  | [] => ⟨false, none, "none"⟩
  | i0 :: _ =>
    match findTierMatch projectName expectedProfileId instances with
    | some (i, t) => ⟨true, some i, t⟩
    | none =>
      match instances.find? (fun i => i.bindAddress == "0.0.0.0".toList) with
      | some i => ⟨false, some i, "accessible"⟩
      | none => ⟨false, some i0, "first"⟩

theorem findTierMatch_none_iff (pn pid : List Char) (l : List ChromeInstance) :
    findTierMatch pn pid l = none ↔
      l.find? (fun j => (matchTier pn pid j).isSome) = none := by
  induction l with
  | nil => simp [findTierMatch]
  | cons i rest ih =>
    rw [findTierMatch, List.find?]
    cases hm : matchTier pn pid i with
    | some t => simp [hm]
    | none => simpa [hm] using ih

theorem findTierMatch_some (pn pid : List Char) (l : List ChromeInstance)
    (i : ChromeInstance) (t : String)
    (hf : l.find? (fun j => (matchTier pn pid j).isSome) = some i)
    (ht : matchTier pn pid i = some t) :
    findTierMatch pn pid l = some (i, t) := by
  induction l with
  | nil => simp [List.find?] at hf
  | cons a rest ih =>
    rw [List.find?] at hf
    rw [findTierMatch]
    cases hm : matchTier pn pid a with
    | some u =>
      rw [hm] at hf
      simp only [Option.isSome_some, List.find?] at hf
      cases hf
      rw [hm] at ht
      cases ht
      rfl
    | none =>
      rw [hm] at hf
      simp only [Option.isSome_none, Bool.false_eq_true] at hf
      exact ih hf

/-- A concrete legacy-format instance: old `.puppeteer-profile` directory
inside the project directory. -/
def legacyInst : ChromeInstance :=
  ⟨9222, "d:/work/myproj/.puppeteer-profile".toList, "127.0.0.1".toList⟩

/-- A concrete new-format instance: `browsermonitor\` profile containing the
project's profile id. -/
def exactInst : ChromeInstance :=
  ⟨9223, "c:/users/u/appdata/local/browsermonitor/myproj_ab12cd34".toList,
    "127.0.0.1".toList⟩

/-- Counterexample to claim C2 as stated: with the legacy-format instance
listed before the exact-format instance, `findProjectChrome` returns the
legacy match even though an exact profile-id match exists later in the list —
the tiers are applied per instance in list order, not in strict priority
order across the whole list. -/
theorem findProjectChrome_counterexample :
    matchTier "myproj".toList "myproj_ab12cd34".toList exactInst = some "exact" ∧
      findProjectChrome [legacyInst, exactInst] "myproj".toList
          "myproj_ab12cd34".toList =
        ⟨true, some legacyInst, "legacy"⟩ := by
  constructor
  · decide
  · decide

/-- Claim C2 amended: `findProjectChrome` returns the first instance in list
order whose per-instance tier check (exact before legacy, within that one
instance) succeeds, reporting that instance's tier and `found = true`; only
when no instance passes either tier does it fall back to the first instance
with bind address `0.0.0.0` (tier `accessible`), then to the first instance
(tier `first`); the empty list yields tier `none`.  The `matchType` field
always reports the tier that applied. -/
theorem findProjectChrome_amended (instances : List ChromeInstance)
    (pn pid : List Char) :
    (∀ i t, instances.find? (fun j => (matchTier pn pid j).isSome) = some i →
        matchTier pn pid i = some t →
        findProjectChrome instances pn pid = ⟨true, some i, t⟩) ∧
      (instances.find? (fun j => (matchTier pn pid j).isSome) = none →
        (∀ i, instances.find? (fun j => j.bindAddress == "0.0.0.0".toList) = some i →
            findProjectChrome instances pn pid = ⟨false, some i, "accessible"⟩) ∧
          (instances ≠ [] →
            instances.find? (fun j => j.bindAddress == "0.0.0.0".toList) = none →
            findProjectChrome instances pn pid = ⟨false, instances.head?, "first"⟩)) ∧
      (findProjectChrome instances pn pid = ⟨false, none, "none"⟩ ↔ instances = []) := by
  refine ⟨?_, ?_, ?_⟩
  · intro i t hf ht
    cases instances with
    | nil => simp [List.find?] at hf
    | cons i0 rest =>
      rw [findProjectChrome, findTierMatch_some pn pid _ i t hf ht]
  · intro hnone
    have hloop := (findTierMatch_none_iff pn pid instances).mpr hnone
    constructor
    · intro i hacc
      cases instances with
      | nil => simp [List.find?] at hacc
      | cons i0 rest =>
        rw [findProjectChrome, hloop, hacc]
    · intro hne hacc
      cases instances with
      | nil => exact absurd rfl hne
      | cons i0 rest =>
        rw [findProjectChrome, hloop, hacc]
        rfl
  · constructor
    · intro h
      cases instances with
      | nil => rfl
      | cons i0 rest =>
        rw [findProjectChrome] at h
        cases hl : findTierMatch pn pid (i0 :: rest) with
        | some it =>
          rw [hl] at h
          cases h
        | none =>
          rw [hl] at h
          cases hacc : (i0 :: rest).find? (fun i => i.bindAddress == "0.0.0.0".toList) with
          | some i =>
            rw [hacc] at h
            cases h
          | none =>
            rw [hacc] at h
            cases h
    · intro h
      subst h
      rfl

/-- Witness for the amended C2 at a concrete input: a singleton list whose
only instance matches the exact tier is returned as an exact match. -/
theorem findProjectChrome_amended_witness :
    findProjectChrome [exactInst] "myproj".toList "myproj_ab12cd34".toList =
      ⟨true, some exactInst, "exact"⟩ :=
  (findProjectChrome_amended [exactInst] "myproj".toList "myproj_ab12cd34".toList).1
    exactInst "exact" (by decide) (by decide)

/-!
## Port proxy conflict auto-fix (join-mode.mjs lines 601-639, open-mode.mjs
lines 726-765)

Both modes run the same block after `runWslDiagnostics`:

```js
if (diagResult.hasPortProxyConflict) {
  // banner ...
  const shouldFix = await askYesNo('Do you want me to fix this automatically? ...');
  if (shouldFix) {
    const fixPort = diagResult.actualPort || port;
    execSync('netsh.exe interface portproxy delete v4tov4 listenport=' + fixPort + ' ...');
    killPuppeteerMonitorChromes(true);
    process.exit(0);
  }
}
```

(join mode uses the requested `port`, open mode `windowsDebugPort`, as the
fallback port; both are the `port` parameter here).
-/

/-- The classification produced by `runWslDiagnostics` that this flow
consumes. -/
structure DiagnosticsResult where
  hasPortProxyConflict : Bool
  actualPort : Option Nat
  deriving DecidableEq, Repr

/-- Effects of the auto-fix block. -/
inductive FixAct
  | removePortProxyRule (port : Nat)
  | killManagedChrome
  | exitSuccess
  deriving DecidableEq, Repr

/-- The auto-fix block shared by join mode and open mode.  Returns whether
the yes/no confirmation was put to the operator, and the list of effects
executed.  `answerYes` is the operator's answer (consulted only if asked). -/
def autoFixFlow (diag : DiagnosticsResult) (port : Nat) (answerYes : Bool) :
    Bool × List FixAct :=
  if diag.hasPortProxyConflict then
    if answerYes then
      (true,
        [FixAct.removePortProxyRule (diag.actualPort.getD port),
          FixAct.killManagedChrome, FixAct.exitSuccess])
    else (true, [])
  else (false, [])

/-- Claim C3: the stale-rule remedy (rule removal and managed-process
termination) runs only when diagnostics reported a port proxy conflict and
the operator confirmed; when the confirmation is declined or never asked, no
effect runs — and the confirmation is asked exactly in the conflict case.
The block is shared verbatim by join mode and open mode. -/
theorem autoFixFlow_gating (diag : DiagnosticsResult) (port : Nat) (answerYes : Bool) :
    ((autoFixFlow diag port answerYes).2 ≠ [] →
        diag.hasPortProxyConflict = true ∧ answerYes = true) ∧
      (answerYes = false → (autoFixFlow diag port answerYes).2 = []) ∧
      ((autoFixFlow diag port answerYes).1 = false →
        (autoFixFlow diag port answerYes).2 = []) ∧
      ((autoFixFlow diag port answerYes).1 = diag.hasPortProxyConflict) ∧
      (diag.hasPortProxyConflict = true → answerYes = true →
        (autoFixFlow diag port answerYes).2 =
          [FixAct.removePortProxyRule (diag.actualPort.getD port),
            FixAct.killManagedChrome, FixAct.exitSuccess]) := by
  cases diag with
  | mk conflict actual =>
    cases conflict <;> cases answerYes <;>
      simp [autoFixFlow]

/-- Witness for C3 at a concrete input: a conflict on port 9222 with the
operator confirming executes exactly rule-removal, managed kill, exit. -/
theorem autoFixFlow_gating_witness :
    (autoFixFlow ⟨true, some 9222⟩ 9300 true).2 =
      [FixAct.removePortProxyRule ((some 9222).getD 9300),
        FixAct.killManagedChrome, FixAct.exitSuccess] :=
  (autoFixFlow_gating ⟨true, some 9222⟩ 9300 true).2.2.2.2 rfl rfl

/-!
## cleanup (join-mode.mjs lines 167-213, open-mode.mjs lines 90-141)

Both cleanup functions are guarded by the `cleanupDone` flag; a single run
closes the HTTP server, then disconnects from or closes the browser
according to `closeBrowser`, (open mode: unlinks the PID file,) and calls
`process.exit(code)`.  All shutdown triggers (SIGINT, SIGTERM, the `q` and
`k` keys, the hard-timeout timer, fatal exception handlers) call these same
functions.
-/

/-- Teardown effects of the cleanup paths. -/
inductive TeardownAct
  | httpClose
  | browserDisconnect
  | browserClose
  | killManagedChromes
  | pidFileUnlink
  | exitProc (code : Nat)
  deriving DecidableEq, Repr

/-- Join-mode session state relevant to cleanup: the one-shot flag and
whether the HTTP server / browser handles are live. -/
structure JoinSession where
  cleanupDone : Bool
  httpServer : Bool
  browser : Bool
  deriving DecidableEq, Repr

/-- Embedding of `cleanup(code, closeBrowser)` from join-mode.mjs as a state transition
plus the ordered list of teardown effects it performs. -/
def joinCleanup (st : JoinSession) (code : Nat) (closeBrowser : Bool) :
    JoinSession × List TeardownAct :=
  if st.cleanupDone then (st, [])
  else
    ({ st with cleanupDone := true },
      (if st.httpServer then [TeardownAct.httpClose] else []) ++
        (if st.browser then
          if closeBrowser then [TeardownAct.browserClose]
          else [TeardownAct.browserDisconnect]
        else []) ++
        [TeardownAct.exitProc code])

/-- Open-mode session state relevant to cleanup; `launchedOnWindows` selects
the disconnect-and-kill variant of browser shutdown. -/
structure OpenSession where
  cleanupDone : Bool
  httpServer : Bool
  browser : Bool
  launchedOnWindows : Bool
  deriving DecidableEq, Repr

/-- Embedding of `cleanup(code, closeBrowser)` from open-mode.mjs as a state transition
plus the ordered list of teardown effects it performs. -/
def openCleanup (st : OpenSession) (code : Nat) (closeBrowser : Bool) :
    OpenSession × List TeardownAct :=
  if st.cleanupDone then (st, [])
  else
    ({ st with cleanupDone := true },
      (if st.httpServer then [TeardownAct.httpClose] else []) ++
        (if st.browser then
          if closeBrowser then
            if st.launchedOnWindows then
              [TeardownAct.browserDisconnect, TeardownAct.killManagedChromes]
            else [TeardownAct.browserClose]
          else [TeardownAct.browserDisconnect]
        else []) ++
        [TeardownAct.pidFileUnlink, TeardownAct.exitProc code])

/-- Claim C9: cleanup is one-shot and idempotent — any second invocation on
the post-cleanup state (from whichever trigger, with whatever arguments)
performs no effect — and a single invocation on a live session closes the
HTTP listener first, then disconnects from or closes the browser according
to the `closeBrowser` flag, then terminates the process, in both join mode
and open mode. -/
theorem cleanup_one_shot (stJ : JoinSession) (stO : OpenSession)
    (code code' : Nat) (cb cb' : Bool) :
    (((joinCleanup stJ code cb).1).cleanupDone = true ∧
        ((openCleanup stO code cb).1).cleanupDone = true) ∧
      ((joinCleanup (joinCleanup stJ code cb).1 code' cb').2 = [] ∧
        (openCleanup (openCleanup stO code cb).1 code' cb').2 = []) ∧
      (stJ.cleanupDone = false → stJ.httpServer = true → stJ.browser = true →
        (joinCleanup stJ code cb).2 =
          [TeardownAct.httpClose,
            if cb then TeardownAct.browserClose else TeardownAct.browserDisconnect,
            TeardownAct.exitProc code]) ∧
      (stO.cleanupDone = false → stO.httpServer = true → stO.browser = true →
        (openCleanup stO code cb).2 =
          TeardownAct.httpClose ::
            (if cb then
              if stO.launchedOnWindows then
                [TeardownAct.browserDisconnect, TeardownAct.killManagedChromes]
              else [TeardownAct.browserClose]
            else [TeardownAct.browserDisconnect]) ++
              [TeardownAct.pidFileUnlink, TeardownAct.exitProc code]) := by
  refine ⟨⟨?_, ?_⟩, ⟨?_, ?_⟩, ?_, ?_⟩
  · by_cases h : stJ.cleanupDone = true <;> simp [joinCleanup, h]
  · by_cases h : stO.cleanupDone = true <;> simp [openCleanup, h]
  · by_cases h : stJ.cleanupDone = true <;> simp [joinCleanup, h]
  · by_cases h : stO.cleanupDone = true <;> simp [openCleanup, h]
  · intro h1 h2 h3
    cases cb <;> simp [joinCleanup, h1, h2, h3]
  · intro h1 h2 h3
    cases cb <;> cases hl : stO.launchedOnWindows <;>
      simp [openCleanup, h1, h2, h3, hl]

/-- Witness for C9 at a concrete input: a live join session with
`closeBrowser = false` tears down as HTTP close, browser disconnect, exit. -/
theorem cleanup_one_shot_witness :
    (joinCleanup ⟨false, true, true⟩ 0 false).2 =
      [TeardownAct.httpClose,
        if false then TeardownAct.browserClose else TeardownAct.browserDisconnect,
        TeardownAct.exitProc 0] :=
  (cleanup_one_shot ⟨false, true, true⟩ ⟨false, true, true, false⟩ 0 0 false
    false).2.2.1 rfl rfl rfl

/-!
## Page selection (join-mode.mjs lines 540-560)

```js
let selectedPage;
if (pages.length === 1) {
  selectedPage = pages[0];
} else {
  selectedPage = await askUserToSelectPage(pages);
  if (!selectedPage) { selectedPage = pages[0]; }
}
```

(The `pages.length === 0` case errors out beforehand.)  The interactive
prompt `askUserToSelectPage` is an external collaborator here; its resolved
value is the `promptPick` parameter.
-/

/-- Join-mode page selection: the selected page and whether the interactive
prompt was used. -/
def selectPage {P : Type} (pages : List P) (promptPick : Option P) : Option P × Bool :=
  match pages with
  | [] => (none, false)
  | [p] => (some p, false)
  | p0 :: _ :: _ =>
    match promptPick with
    | some p => (some p, true)
    | none => (some p0, true)

/-- Claim C7: with exactly one candidate the page is auto-selected without
prompting; with more than one the interactive prompt runs and its pick is
used, the first candidate being selected when the prompt resolves to no page
(cancellation). -/
theorem selectPage_spec {P : Type} (pages : List P) (promptPick : Option P) :
    (∀ p, pages = [p] → selectPage pages promptPick = (some p, false)) ∧
      (2 ≤ pages.length →
        (selectPage pages promptPick).2 = true ∧
          (∀ q, promptPick = some q → (selectPage pages promptPick).1 = some q) ∧
          (promptPick = none → (selectPage pages promptPick).1 = pages.head?)) := by
  constructor
  · intro p hp
    subst hp
    rfl
  · intro hlen
    match pages, hlen with
    | p0 :: p1 :: rest, _ =>
      refine ⟨?_, ?_, ?_⟩
      · cases promptPick <;> rfl
      · intro q hq
        rw [hq]
        simp [selectPage]
      · intro hp
        rw [hp]
        simp [selectPage]

/-- Witness for C7 at concrete inputs: two candidates with a cancelled prompt
select the first candidate. -/
theorem selectPage_spec_witness :
    (selectPage [10, 20] (none : Option Nat)).1 = [10, 20].head? :=
  ((selectPage_spec [10, 20] none).2 (by decide)).2.2 rfl

/-!
## askUserToSelectChromeInstance (interactive-mode.mjs lines 101-134)

```js
export function askUserToSelectChromeInstance(items) {
  if (items.length === 0) return Promise.resolve(null);
  if (items.length === 1) { return Promise.resolve(items[0].port); }
  // print menu, then on one keypress:
  //   const char = (key.name || str).toLowerCase();
  //   if (char === 'q') resolve(null);
  //   else { const num = parseInt(char, 10);
  //          if (num >= 1 && num <= items.length) resolve(items[num - 1].port);
  //          else { log.warn('Invalid selection'); resolve(null); } }
}
```
-/

/-- One entry of the instance menu (`{ port, label }`). -/
structure InstanceItem where
  port : Nat
  label : List Char
  deriving DecidableEq, Repr

/-- JavaScript `parseInt(s, 10)` restricted to the shapes that occur here
(no sign, no leading whitespace): the leading run of decimal digits, `none`
standing for `NaN` when there is none. -/
def parseIntLeading (s : List Char) : Option Nat :=
  let ds := s.takeWhile (fun c => c.isDigit)
  if ds.isEmpty then none
  else some (ds.foldl (fun a c => a * 10 + (c.toNat - 48)) 0)

/-- Embedding of `askUserToSelectChromeInstance`: resolved port and whether the menu
prompt ran.  `keyChar` is the (already lowercased) keypress string
`key.name || str`. -/
def askUserToSelectChromeInstance (items : List InstanceItem) (keyChar : List Char) :
    Option Nat × Bool :=
  match items with
  | [] => (none, false)
  | [i] => (some i.port, false)
  | _ =>
    if keyChar = ['q'] then (none, true)
    else
      match parseIntLeading keyChar with
      | some n =>
        if h : 1 ≤ n ∧ n ≤ items.length then
          (some (items.get ⟨n - 1, by omega⟩).port, true)
        else (none, true)
      | none => (none, true)

/-- Claim C10: the Chrome-instance prompt resolves to `null` for an empty
list; to the single element's port, without prompting, for a singleton list;
and—with two or more items—to `null` on `q` or on any keypress that does not
parse to an integer in `[1, length]`.  It never falls back to the first
instance. -/
theorem askUserToSelectChromeInstance_spec (items : List InstanceItem)
    (keyChar : List Char) :
    (items = [] → askUserToSelectChromeInstance items keyChar = (none, false)) ∧
      (∀ i, items = [i] →
        askUserToSelectChromeInstance items keyChar = (some i.port, false)) ∧
      (2 ≤ items.length →
        (keyChar = ['q'] →
            askUserToSelectChromeInstance items keyChar = (none, true)) ∧
          (parseIntLeading keyChar = none →
            askUserToSelectChromeInstance items keyChar = (none, true)) ∧
          (∀ n, parseIntLeading keyChar = some n → ¬(1 ≤ n ∧ n ≤ items.length) →
            askUserToSelectChromeInstance items keyChar = (none, true)) ∧
          (∀ n (hn : parseIntLeading keyChar = some n) (h1 : 1 ≤ n)
              (h2 : n ≤ items.length),
            askUserToSelectChromeInstance items keyChar =
              (some (items.get ⟨n - 1, by omega⟩).port, true))) := by
  refine ⟨?_, ?_, ?_⟩
  · intro h
    subst h
    rfl
  · intro i h
    subst h
    rfl
  · intro hlen
    match items, hlen with
    | a :: b :: rest, _ =>
      by_cases hq : keyChar = ['q']
      · refine ⟨fun _ => ?_, fun hp => ?_, fun n hn _ => ?_, fun n hn h1 h2 => ?_⟩
        · simp [askUserToSelectChromeInstance, hq]
        · simp [askUserToSelectChromeInstance, hq]
        · simp [askUserToSelectChromeInstance, hq]
        · rw [hq] at hn
          simp [parseIntLeading, List.takeWhile] at hn
      · refine ⟨fun hk => absurd hk hq, fun hp => ?_, fun n hn hb => ?_, fun n hn h1 h2 => ?_⟩
        · simp [askUserToSelectChromeInstance, hq, hp]
        · simp only [askUserToSelectChromeInstance, if_neg hq, hn]
          rw [dif_neg hb]
        · simp only [askUserToSelectChromeInstance, if_neg hq, hn]
          rw [dif_pos ⟨h1, h2⟩]

/-- Witness for C10 at concrete inputs: with two items, keypress `2` selects
the second item's port; keypress `x` cancels with `null`. -/
theorem askUserToSelectChromeInstance_spec_witness :
    askUserToSelectChromeInstance [⟨9222, []⟩, ⟨9223, []⟩] ['x'] = (none, true) :=
  (((askUserToSelectChromeInstance_spec [⟨9222, []⟩, ⟨9223, []⟩]
    ['x']).2.2 (by decide)).2.1 (by decide))

/-!
## User-page filters (join-mode.mjs lines 515-538 connection time; lines
292-306 switchTabs; lines 122-133 sharedHttpState.getAllTabs — the latter two
and their open-mode twins use the identical filter)

Connection time:

```js
const isUserPage = (page) => {
  const url = page.url();
  if (url.startsWith('chrome://')) return false;
  if (url.startsWith('chrome-extension://')) return false;
  if (url.startsWith('devtools://')) return false;
  if (url === 'about:blank') return false;
  if (url.includes('react-devtools') || url.includes('redux-devtools')) return false;
  if (url.includes('__react_devtools__')) return false;
  if (/^moz-extension:\/\//.test(url)) return false;
  if (/^extension:\/\//.test(url)) return false;
  return true;
};
const userPages = allPages.filter(isUserPage);
const pages = userPages.length > 0 ? userPages : allPages;
```

switchTabs / getAllTabs:

```js
const isUserPage = (pg) => {
  const u = pg.url();
  return !u.startsWith('chrome://') && !u.startsWith('devtools://') &&
         !u.startsWith('chrome-extension://');
};
let pages = allPages.filter(isUserPage);
const nonBlank = pages.filter(pg => pg.url() !== 'about:blank');
if (nonBlank.length > 0) pages = nonBlank;
```

Pages are modelled by their URLs.
-/

/-- The `about:blank` URL. -/
def blankUrl : List Char := "about:blank".toList

/-- The connection-time `isUserPage` predicate of join-mode.mjs. -/
def isUserPageConnect (u : List Char) : Bool :=
  if startsWith u "chrome://".toList then false
  else if startsWith u "chrome-extension://".toList then false
  else if startsWith u "devtools://".toList then false
  else if u == blankUrl then false
  else if containsSub "react-devtools".toList u ||
      containsSub "redux-devtools".toList u then false
  else if containsSub "__react_devtools__".toList u then false
  else if startsWith u "moz-extension://".toList then false
  else if startsWith u "extension://".toList then false
  else true

/-- Connection-time page list: the filtered list, or the unfiltered list
when filtering removed everything. -/
def connectPages (allPages : List (List Char)) : List (List Char) :=
  let userPages := allPages.filter isUserPageConnect
  if userPages.isEmpty then allPages else userPages

/-- The scheme-only `isUserPage` predicate of switchTabs / getAllTabs. -/
def isUserPageBasic (u : List Char) : Bool :=
  !startsWith u "chrome://".toList &&
    !startsWith u "devtools://".toList &&
    !startsWith u "chrome-extension://".toList

/-- The page list used by switchTabs and the HTTP tab listing: scheme filter,
then drop `about:blank` only when some non-blank page remains. -/
def tabsPages (allPages : List (List Char)) : List (List Char) :=
  let pages := allPages.filter isUserPageBasic
  let nonBlank := pages.filter (fun u => !(u == blankUrl))
  if nonBlank.isEmpty then pages else nonBlank

/-- Counterexample to claim C6 as stated: when the scheme filter removes
every page, the HTTP tab listing (and switchTabs) page list is empty — the
fallback to the unfiltered list exists only at connection time. -/
theorem listUserPages_counterexample :
    tabsPages ["chrome://settings".toList] = [] ∧
      ["chrome://settings".toList] ≠ ([] : List (List Char)) ∧
      connectPages ["chrome://settings".toList] = ["chrome://settings".toList] := by
  refine ⟨by decide, by decide, by decide⟩

/-- Claim C6 amended: all three operations drop internal/devtools/extension
pages; the fallback to the unfiltered list when filtering empties the result
applies only at connection time (whose filter also removes `about:blank` and
devtools-extension URLs), while switch-tabs and the HTTP tab listing keep
the empty list; in the latter two, blank pages are excluded exactly when a
non-blank page survives the scheme filter. -/
theorem listUserPages_amended (allPages : List (List Char)) :
    (allPages.filter isUserPageConnect ≠ [] →
        connectPages allPages = allPages.filter isUserPageConnect) ∧
      (allPages.filter isUserPageConnect = [] → connectPages allPages = allPages) ∧
      ((allPages.filter isUserPageBasic).filter (fun u => !(u == blankUrl)) ≠ [] →
        tabsPages allPages =
          (allPages.filter isUserPageBasic).filter (fun u => !(u == blankUrl))) ∧
      ((allPages.filter isUserPageBasic).filter (fun u => !(u == blankUrl)) = [] →
        tabsPages allPages = allPages.filter isUserPageBasic) ∧
      (∀ u ∈ connectPages allPages, u ∈ allPages) ∧
      (∀ u ∈ tabsPages allPages, isUserPageBasic u = true) := by
  refine ⟨?_, ?_, ?_, ?_, ?_, ?_⟩
  · intro h
    rw [connectPages]
    simp only [List.isEmpty_iff]
    rw [if_neg h]
  · intro h
    rw [connectPages]
    simp only [List.isEmpty_iff]
    rw [if_pos h]
  · intro h
    rw [tabsPages]
    simp only [List.isEmpty_iff]
    rw [if_neg h]
  · intro h
    rw [tabsPages]
    simp only [List.isEmpty_iff]
    rw [if_pos h]
  · intro u hu
    rw [connectPages] at hu
    simp only [List.isEmpty_iff] at hu
    by_cases h : allPages.filter isUserPageConnect = []
    · rwa [if_pos h] at hu
    · rw [if_neg h] at hu
      exact List.mem_of_mem_filter hu
  · intro u hu
    rw [tabsPages] at hu
    simp only [List.isEmpty_iff] at hu
    by_cases h : (allPages.filter isUserPageBasic).filter (fun u => !(u == blankUrl)) = []
    · rw [if_pos h] at hu
      exact List.of_mem_filter hu
    · rw [if_neg h] at hu
      exact List.of_mem_filter (List.mem_of_mem_filter hu)

/-- Witness for the amended C6 at a concrete input: one real page among
internal ones survives all three filters, and blanks are dropped by the tab
listing because a non-blank page exists. -/
theorem listUserPages_amended_witness :
    tabsPages ["about:blank".toList, "chrome://x".toList, "https://app".toList] =
      (["about:blank".toList, "chrome://x".toList,
        "https://app".toList].filter isUserPageBasic).filter
        (fun u => !(u == blankUrl)) :=
  (listUserPages_amended
    ["about:blank".toList, "chrome://x".toList, "https://app".toList]).2.2.1
    (by decide)

/-!
## Connect retry loop (open-mode.mjs lines 692-728) and diagnostics
escalation (open-mode.mjs line 728, join-mode.mjs lines 586-603)

```js
const MAX_RETRIES = 5;
const RETRY_DELAY = 1500;
let lastError = null;
for (let attempt = 1; attempt <= MAX_RETRIES; attempt++) {
  try {
    await new Promise(r => setTimeout(r, RETRY_DELAY));
    try {
      const response = await fetch(versionUrl, { signal: AbortSignal.timeout(3000) });
      // (a reachable endpoint only updates the status line)
    } catch (fetchErr) {
      throw new Error('Cannot reach Chrome debug endpoint: ' + fetchErr.message);
    }
    browser = await puppeteer.connect({ browserURL, defaultViewport: null });
    lastError = null;
    break;
  } catch (e) { lastError = e; }
}
if (lastError) {
  // log, then:
  const diagResult = await runWslDiagnostics(windowsDebugPort, connectHost);
  ...
}
```

The environment is modelled per attempt number: whether the `/json/version`
probe throws (and with what message) and whether `puppeteer.connect` throws.
-/

/-- Outcome of one attempt's two fallible steps: the version-endpoint probe
and `puppeteer.connect`.  `none` = step succeeds. -/
structure ConnectAttempt where
  probeErr : Option String
  connectErr : Option String

/-- Events of the connect phase. -/
inductive ConnAct
  | delay (ms : Nat)
  | probeVersion
  | puppeteerConnect
  | runDiagnostics
  deriving DecidableEq, Repr

/-- The error recorded by one loop iteration (`lastError` when the iteration
fails): a probe failure is wrapped into the specific endpoint message and
preempts the connect step; otherwise the connect error (if any) stands. -/
def attemptError (a : ConnectAttempt) : Option String :=
  match a.probeErr with
  | some m => some ("Cannot reach Chrome debug endpoint: " ++ m)
  | none => a.connectErr

/-- The events of one loop iteration: the inter-attempt delay, the probe,
and — only when the probe did not throw — the connect call. -/
def attemptActs (a : ConnectAttempt) : List ConnAct :=
  match a.probeErr with
  | some _ => [ConnAct.delay 1500, ConnAct.probeVersion]
  | none => [ConnAct.delay 1500, ConnAct.probeVersion, ConnAct.puppeteerConnect]

/-- The retry loop: attempt number `k`, `r` attempts remaining, current
`lastError`.  Breaks on the first successful iteration. -/
def connectRetryGo (env : Nat → ConnectAttempt) :
    Nat → Nat → Option String → List ConnAct × Option String
  | _, 0, lastErr => ([], lastErr)
  | k, r + 1, _ =>
    match attemptError (env k) with
    | none => (attemptActs (env k), none)
    | some m =>
      let rest := connectRetryGo env (k + 1) r (some m)
      (attemptActs (env k) ++ rest.1, rest.2)

/-- The open-mode connect phase: 5 attempts, then — exactly when the loop
exhausted with an error — `runWslDiagnostics`. -/
def openModeConnect (env : Nat → ConnectAttempt) : List ConnAct × Option String :=
  let r := connectRetryGo env 1 5 none
  match r.2 with
  | some m => (r.1 ++ [ConnAct.runDiagnostics], some m)
  | none => r

theorem attemptActs_delay (a : ConnectAttempt) (ms : Nat)
    (h : ConnAct.delay ms ∈ attemptActs a) : ms = 1500 := by
  cases hp : a.probeErr with
  | some m =>
    rw [attemptActs, hp] at h
    simp at h
    exact h
  | none =>
    rw [attemptActs, hp] at h
    simp at h
    exact h

theorem attemptActs_counts (a : ConnectAttempt) :
    (attemptActs a).count ConnAct.probeVersion = 1 ∧
      (attemptActs a).count (ConnAct.delay 1500) = 1 ∧
      (attemptActs a).count ConnAct.puppeteerConnect ≤ 1 ∧
      ConnAct.runDiagnostics ∉ attemptActs a := by
  rw [attemptActs]
  cases a.probeErr <;> simp [List.count_cons]

theorem connectRetryGo_delay (env : Nat → ConnectAttempt) (k r : Nat)
    (le : Option String) (ms : Nat)
    (h : ConnAct.delay ms ∈ (connectRetryGo env k r le).1) : ms = 1500 := by
  induction r generalizing k le with
  | zero => simp [connectRetryGo] at h
  | succ n ih =>
    rw [connectRetryGo] at h
    cases hE : attemptError (env k) with
    | none =>
      rw [hE] at h
      exact attemptActs_delay _ _ h
    | some m =>
      rw [hE] at h
      simp only [List.mem_append] at h
      cases h with
      | inl h => exact attemptActs_delay _ _ h
      | inr h => exact ih (k + 1) (some m) h

theorem connectRetryGo_no_diag (env : Nat → ConnectAttempt) (k r : Nat)
    (le : Option String) :
    ConnAct.runDiagnostics ∉ (connectRetryGo env k r le).1 := by
  induction r generalizing k le with
  | zero => simp [connectRetryGo]
  | succ n ih =>
    rw [connectRetryGo]
    cases hE : attemptError (env k) with
    | none => exact (attemptActs_counts (env k)).2.2.2
    | some m =>
      simp only [List.mem_append]
      rintro (h | h)
      · exact (attemptActs_counts (env k)).2.2.2 h
      · exact ih (k + 1) (some m) h

theorem connectRetryGo_probe_le (env : Nat → ConnectAttempt) (k r : Nat)
    (le : Option String) :
    (connectRetryGo env k r le).1.count ConnAct.probeVersion ≤ r := by
  induction r generalizing k le with
  | zero => simp [connectRetryGo]
  | succ n ih =>
    rw [connectRetryGo]
    cases attemptError (env k) with
    | none =>
      rw [(attemptActs_counts (env k)).1]
      omega
    | some m =>
      rw [List.count_append, (attemptActs_counts (env k)).1]
      have := ih (k + 1) (some m)
      omega

theorem connectRetryGo_delay_eq_probe (env : Nat → ConnectAttempt) (k r : Nat)
    (le : Option String) :
    (connectRetryGo env k r le).1.count (ConnAct.delay 1500) =
      (connectRetryGo env k r le).1.count ConnAct.probeVersion := by
  induction r generalizing k le with
  | zero => simp [connectRetryGo]
  | succ n ih =>
    rw [connectRetryGo]
    cases attemptError (env k) with
    | none => rw [(attemptActs_counts (env k)).1, (attemptActs_counts (env k)).2.1]
    | some m =>
      rw [List.count_append, List.count_append,
        (attemptActs_counts (env k)).1, (attemptActs_counts (env k)).2.1,
        ih (k + 1) (some m)]

theorem connectRetryGo_connect_le_probe (env : Nat → ConnectAttempt) (k r : Nat)
    (le : Option String) :
    (connectRetryGo env k r le).1.count ConnAct.puppeteerConnect ≤
      (connectRetryGo env k r le).1.count ConnAct.probeVersion := by
  induction r generalizing k le with
  | zero => simp [connectRetryGo]
  | succ n ih =>
    rw [connectRetryGo]
    cases attemptError (env k) with
    | none =>
      rw [(attemptActs_counts (env k)).1]
      exact (attemptActs_counts (env k)).2.2.1
    | some m =>
      rw [List.count_append, List.count_append, (attemptActs_counts (env k)).1]
      have h1 := (attemptActs_counts (env k)).2.2.1
      have h2 := ih (k + 1) (some m)
      omega

theorem connectRetryGo_err_probe_count (env : Nat → ConnectAttempt) (k r : Nat)
    (le : Option String) (m : String)
    (h : (connectRetryGo env k r le).2 = some m) :
    (connectRetryGo env k r le).1.count ConnAct.probeVersion = r := by
  induction r generalizing k le with
  | zero => simp [connectRetryGo]
  | succ n ih =>
    cases hE : attemptError (env k) with
    | none =>
      simp only [connectRetryGo, hE] at h
      exact Option.noConfusion h
    | some m' =>
      simp only [connectRetryGo, hE] at h ⊢
      rw [List.count_append, (attemptActs_counts (env k)).1, ih (k + 1) (some m') h]
      omega

theorem connectRetryGo_err_source (env : Nat → ConnectAttempt) (k r : Nat)
    (le : Option String) (m : String)
    (hr : 0 < r) (h : (connectRetryGo env k r le).2 = some m) :
    ∃ j, k ≤ j ∧ j < k + r ∧ attemptError (env j) = some m := by
  induction r generalizing k le with
  | zero => omega
  | succ n ih =>
    rw [connectRetryGo] at h
    cases hE : attemptError (env k) with
    | none =>
      rw [hE] at h
      cases h
    | some m' =>
      rw [hE] at h
      by_cases hn : 0 < n
      · obtain ⟨j, hj1, hj2, hj3⟩ := ih (k + 1) (some m') hn h
        exact ⟨j, by omega, by omega, hj3⟩
      · have hn0 : n = 0 := by omega
        subst hn0
        simp only [connectRetryGo] at h
        cases h
        exact ⟨k, Nat.le_refl _, by omega, hE⟩

/-- Claim C4: the connect operation makes at most 5 attempts, each preceded
by a 1500 ms delay and a `/json/version` probe (the connect call only runs
when the probe succeeded); a probe failure records the specific error
`Cannot reach Chrome debug endpoint: …`; and when the loop exhausts all 5
attempts with an error, `runWslDiagnostics` runs as the final step — while a
successful connect never triggers diagnostics. -/
theorem connectRetry_spec (env : Nat → ConnectAttempt) :
    (∀ ms, ConnAct.delay ms ∈ (openModeConnect env).1 → ms = 1500) ∧
      ((openModeConnect env).1.count ConnAct.probeVersion ≤ 5 ∧
        (openModeConnect env).1.count (ConnAct.delay 1500) =
          (openModeConnect env).1.count ConnAct.probeVersion ∧
        (openModeConnect env).1.count ConnAct.puppeteerConnect ≤
          (openModeConnect env).1.count ConnAct.probeVersion) ∧
      (∀ m, (openModeConnect env).2 = some m →
        (openModeConnect env).1.count ConnAct.probeVersion = 5 ∧
          (openModeConnect env).1.getLast? = some ConnAct.runDiagnostics ∧
          ∃ j, 1 ≤ j ∧ j ≤ 5 ∧ attemptError (env j) = some m) ∧
      ((openModeConnect env).2 = none →
        ConnAct.runDiagnostics ∉ (openModeConnect env).1) ∧
      (∀ a s, a.probeErr = some s →
        attemptError a = some ("Cannot reach Chrome debug endpoint: " ++ s)) := by
  have hsome1 : ∀ m, (connectRetryGo env 1 5 none).2 = some m →
      (openModeConnect env).1 =
        (connectRetryGo env 1 5 none).1 ++ [ConnAct.runDiagnostics] := by
    intro m hm
    simp only [openModeConnect, hm]
  have hsome2 : ∀ m, (connectRetryGo env 1 5 none).2 = some m →
      (openModeConnect env).2 = some m := by
    intro m hm
    simp only [openModeConnect, hm]
  have hnone1 : (connectRetryGo env 1 5 none).2 = none →
      (openModeConnect env).1 = (connectRetryGo env 1 5 none).1 := by
    intro hm
    simp only [openModeConnect, hm]
  have hnone2 : (connectRetryGo env 1 5 none).2 = none →
      (openModeConnect env).2 = none := by
    intro hm
    simp only [openModeConnect, hm]
  have hdiag0 : List.count ConnAct.probeVersion [ConnAct.runDiagnostics] = 0 := by
    decide
  have hdiag1 : List.count (ConnAct.delay 1500) [ConnAct.runDiagnostics] = 0 := by
    decide
  have hdiag2 : List.count ConnAct.puppeteerConnect [ConnAct.runDiagnostics] = 0 := by
    decide
  refine ⟨?_, ⟨?_, ?_, ?_⟩, ?_, ?_, ?_⟩
  · intro ms hms
    cases hE : (connectRetryGo env 1 5 none).2 with
    | some m =>
      rw [hsome1 m hE] at hms
      rcases List.mem_append.mp hms with h | h
      · exact connectRetryGo_delay env 1 5 none ms h
      · simp at h
    | none =>
      rw [hnone1 hE] at hms
      exact connectRetryGo_delay env 1 5 none ms hms
  · cases hE : (connectRetryGo env 1 5 none).2 with
    | some m =>
      rw [hsome1 m hE, List.count_append, hdiag0]
      have := connectRetryGo_probe_le env 1 5 none
      omega
    | none =>
      rw [hnone1 hE]
      exact connectRetryGo_probe_le env 1 5 none
  · cases hE : (connectRetryGo env 1 5 none).2 with
    | some m =>
      rw [hsome1 m hE, List.count_append, List.count_append, hdiag0, hdiag1,
        connectRetryGo_delay_eq_probe env 1 5 none]
    | none =>
      rw [hnone1 hE]
      exact connectRetryGo_delay_eq_probe env 1 5 none
  · cases hE : (connectRetryGo env 1 5 none).2 with
    | some m =>
      rw [hsome1 m hE, List.count_append, List.count_append, hdiag0, hdiag2]
      have := connectRetryGo_connect_le_probe env 1 5 none
      omega
    | none =>
      rw [hnone1 hE]
      exact connectRetryGo_connect_le_probe env 1 5 none
  · intro m hm
    cases hE : (connectRetryGo env 1 5 none).2 with
    | some m' =>
      rw [hsome2 m' hE] at hm
      obtain rfl : m' = m := Option.some.inj hm
      refine ⟨?_, ?_, ?_⟩
      · rw [hsome1 m' hE, List.count_append, hdiag0,
          connectRetryGo_err_probe_count env 1 5 none m' hE]
      · rw [hsome1 m' hE, List.getLast?_concat]
      · obtain ⟨j, hj1, hj2, hj3⟩ :=
          connectRetryGo_err_source env 1 5 none m' (by omega) hE
        exact ⟨j, hj1, by omega, hj3⟩
    | none =>
      rw [hnone2 hE] at hm
      cases hm
  · intro hn
    cases hE : (connectRetryGo env 1 5 none).2 with
    | some m =>
      rw [hsome2 m hE] at hn
      cases hn
    | none =>
      rw [hnone1 hE]
      exact connectRetryGo_no_diag env 1 5 none
  · intro a s hs
    simp only [attemptError, hs]

/-- Witness for C4 at a concrete input: with every probe failing, the loop
exhausts 5 probes, ends in diagnostics, and surfaces the specific endpoint
error from one of the five attempts. -/
theorem connectRetry_spec_witness :
    (openModeConnect fun _ =>
        ⟨some "fetch failed", none⟩).1.count ConnAct.probeVersion = 5 ∧
      (openModeConnect fun _ =>
        ⟨some "fetch failed", none⟩).1.getLast? = some ConnAct.runDiagnostics ∧
      ∃ j, 1 ≤ j ∧ j ≤ 5 ∧
        attemptError ((fun _ => ⟨some "fetch failed", none⟩ : Nat → ConnectAttempt) j) =
          some ("Cannot reach Chrome debug endpoint: fetch failed") :=
  (connectRetry_spec (fun _ => ⟨some "fetch failed", none⟩)).2.2.1
    ("Cannot reach Chrome debug endpoint: fetch failed") (by decide)

/-!
## startChromeOnWindows (chrome.mjs lines 328-404; the same poll-and-proxy
logic is repeated inline in open-mode.mjs lines 637-668)

```js
// remove any existing port proxy on this port
execSync("netsh interface portproxy delete v4tov4 listenport=PORT listenaddress=0.0.0.0");
// Start-Process chrome ...
let chromeBindAddress = null;
for (let i = 0; i < 10; i++) {
  execSync('powershell ... Start-Sleep -Milliseconds 500');
  const netstatOutput = execSync('netstat.exe -ano');
  const lines = netstatOutput.split('\n').filter(l => l.includes(':' + port) && l.includes('LISTEN'));
  for (const line of lines) {
    if (line.includes('127.0.0.1:' + port)) { chromeBindAddress = '127.0.0.1'; break; }
    else if (line.includes('[::1]:' + port)) { chromeBindAddress = '::1'; break; }
  }
  if (chromeBindAddress) break;
}
if (!chromeBindAddress) chromeBindAddress = '127.0.0.1';
const isIPv6 = chromeBindAddress === '::1';
const proxyType = isIPv6 ? 'v4tov6' : 'v4tov4';
const connectAddress = isIPv6 ? '::1' : '127.0.0.1';
// delete v4tov4 and v4tov6 rules for the port, then:
// netsh interface portproxy add  proxyType listenport=PORT ... connectaddress=connectAddress
```

`net i` below is the netstat output (as lines) observed at poll iteration `i`.
-/

/-- The decimal digit character for `n % 10`. -/
def digitChar (n : Nat) : Char := Char.ofNat (48 + n % 10)

/-- Fuel-driven decimal rendering helper. -/
def natDigitsAux : Nat → Nat → List Char
  | 0, _ => []
  | fuel + 1, n =>
    if n < 10 then [digitChar n]
    else natDigitsAux fuel (n / 10) ++ [digitChar (n % 10)]

/-- Decimal rendering of a natural number (for `':' + port` interpolation). -/
def natDigits (n : Nat) : List Char := natDigitsAux (n + 1) n

/-- The inner `for (const line of lines)` scan: first line naming the IPv4
loopback wins over IPv6 within a line, lines visited in order. -/
def netstatScanGo (portStr : List Char) : List (List Char) → Option String
  | [] => none
  | l :: rest =>
    if containsSub ("127.0.0.1:".toList ++ portStr) l then some "127.0.0.1"
    else if containsSub ("[::1]:".toList ++ portStr) l then some "::1"
    else netstatScanGo portStr rest

/-- One poll iteration: filter netstat lines mentioning `':' + port` and
`LISTEN`, then scan them for a loopback listener on the port. -/
def netstatScan (port : Nat) (lines : List (List Char)) : Option String :=
  netstatScanGo (natDigits port)
    (lines.filter (fun l =>
      containsSub (':' :: natDigits port) l && containsSub "LISTEN".toList l))

/-- Effects of the launch-and-proxy sequence. -/
inductive ProxyAct
  | deleteRule (ptype : String) (port : Nat)
  | addRule (ptype : String) (port : Nat) (connectAddress : String)
  | launchChrome
  | sleep500
  | pollNetstat
  deriving DecidableEq, Repr

/-- The bind-address poll loop (`for (let i = 0; i < 10; i++)`): iteration
index `i`, `r` iterations remaining; each iteration sleeps 500 ms then reads
netstat, breaking on the first detection. -/
def detectBindGo (port : Nat) (net : Nat → List (List Char)) :
    Nat → Nat → List ProxyAct × Option String
  | _, 0 => ([], none)
  | i, r + 1 =>
    match netstatScan port (net i) with
    | some addr => ([ProxyAct.sleep500, ProxyAct.pollNetstat], some addr)
    | none =>
      let rest := detectBindGo port net (i + 1) r
      (ProxyAct.sleep500 :: ProxyAct.pollNetstat :: rest.1, rest.2)

/-- The detected bind address, with the IPv4 default when the 10 polls
found nothing. -/
def chromeBindAddress (port : Nat) (net : Nat → List (List Char)) : String :=
  (detectBindGo port net 0 10).2.getD "127.0.0.1"

/-- JavaScript `proxyType = isIPv6 ? 'v4tov6' : 'v4tov4'`. -/
def proxyTypeFor (addr : String) : String :=
  if addr == "::1" then "v4tov6" else "v4tov4"

/-- JavaScript `connectAddress = isIPv6 ? '::1' : '127.0.0.1'`. -/
def connectAddressFor (addr : String) : String :=
  if addr == "::1" then "::1" else "127.0.0.1"

/-- Embedding of `startChromeOnWindows` as its ordered effect list plus the bind address
it settled on: initial stale-rule delete, launch, delay/poll iterations,
stale-rule deletes for both forward types, and finally the matching add. -/
def startChromeOnWindows (port : Nat) (net : Nat → List (List Char)) :
    List ProxyAct × String :=
  (ProxyAct.deleteRule "v4tov4" port :: ProxyAct.launchChrome ::
      (detectBindGo port net 0 10).1 ++
        [ProxyAct.deleteRule "v4tov4" port, ProxyAct.deleteRule "v4tov6" port,
          ProxyAct.addRule (proxyTypeFor (chromeBindAddress port net)) port
            (connectAddressFor (chromeBindAddress port net))],
    chromeBindAddress port net)

theorem detectBindGo_mem (port : Nat) (net : Nat → List (List Char)) (i r : Nat) :
    ∀ x ∈ (detectBindGo port net i r).1,
      x = ProxyAct.sleep500 ∨ x = ProxyAct.pollNetstat := by
  induction r generalizing i with
  | zero => simp [detectBindGo]
  | succ n ih =>
    intro x hx
    rw [detectBindGo] at hx
    cases hs : netstatScan port (net i) with
    | some a =>
      rw [hs] at hx
      simp at hx
      tauto
    | none =>
      rw [hs] at hx
      simp only [List.mem_cons] at hx
      rcases hx with h | h | h
      · exact Or.inl h
      · exact Or.inr h
      · exact ih (i + 1) x h

theorem detectBindGo_counts (port : Nat) (net : Nat → List (List Char)) (i r : Nat) :
    (detectBindGo port net i r).1.count ProxyAct.pollNetstat ≤ r ∧
      (detectBindGo port net i r).1.count ProxyAct.sleep500 =
        (detectBindGo port net i r).1.count ProxyAct.pollNetstat := by
  induction r generalizing i with
  | zero => simp [detectBindGo]
  | succ n ih =>
    cases hs : netstatScan port (net i) with
    | some a =>
      simp only [detectBindGo, hs]
      refine ⟨?_, rfl⟩
      have h1 : List.count ProxyAct.pollNetstat
          [ProxyAct.sleep500, ProxyAct.pollNetstat] = 1 := rfl
      omega
    | none =>
      simp only [detectBindGo, hs]
      obtain ⟨h1, h2⟩ := ih (i + 1)
      simp [List.count_cons]
      omega

theorem detectBindGo_all_none (port : Nat) (net : Nat → List (List Char)) (i r : Nat)
    (h : ∀ j, i ≤ j → j < i + r → netstatScan port (net j) = none) :
    (detectBindGo port net i r).2 = none ∧
      (detectBindGo port net i r).1.count ProxyAct.pollNetstat = r := by
  induction r generalizing i with
  | zero => simp [detectBindGo]
  | succ n ih =>
    have hi : netstatScan port (net i) = none := h i (Nat.le_refl _) (by omega)
    simp only [detectBindGo, hi]
    obtain ⟨h1, h2⟩ := ih (i + 1) (fun j hj1 hj2 => h j (by omega) (by omega))
    refine ⟨h1, ?_⟩
    simp [List.count_cons]
    omega

theorem detectBindGo_first_hit (port : Nat) (net : Nat → List (List Char))
    (i r k : Nat) (a : String)
    (hk : k < r) (hhit : netstatScan port (net (i + k)) = some a)
    (hbefore : ∀ j, j < k → netstatScan port (net (i + j)) = none) :
    (detectBindGo port net i r).2 = some a := by
  induction r generalizing i k with
  | zero => omega
  | succ n ih =>
    cases hs : netstatScan port (net i) with
    | some b =>
      simp only [detectBindGo, hs]
      rcases Nat.eq_zero_or_pos k with hk0 | hkpos
      · subst hk0
        rw [Nat.add_zero] at hhit
        rw [hs] at hhit
        exact hhit
      · have := hbefore 0 hkpos
        rw [Nat.add_zero] at this
        rw [hs] at this
        cases this
    | none =>
      simp only [detectBindGo, hs]
      rcases Nat.eq_zero_or_pos k with hk0 | hkpos
      · subst hk0
        rw [Nat.add_zero] at hhit
        rw [hs] at hhit
        cases hhit
      · obtain ⟨k', rfl⟩ : ∃ k', k = k' + 1 := ⟨k - 1, by omega⟩
        refine ih (i + 1) k' (by omega) ?_ ?_
        · have : i + 1 + k' = i + (k' + 1) := by omega
          rw [this]
          exact hhit
        · intro j hj
          have : i + 1 + j = i + (j + 1) := by omega
          rw [this]
          exact hbefore (j + 1) (by omega)

theorem startChrome_counts (port : Nat) (net : Nat → List (List Char)) :
    (startChromeOnWindows port net).1.count ProxyAct.pollNetstat =
      (detectBindGo port net 0 10).1.count ProxyAct.pollNetstat ∧
      (startChromeOnWindows port net).1.count ProxyAct.sleep500 =
        (detectBindGo port net 0 10).1.count ProxyAct.sleep500 := by
  simp [startChromeOnWindows, List.count_cons, List.count_append]

/-- Claim C5: after launching, the bind-address poll runs at most 10
iterations, each preceded by one 500 ms sleep; if no loopback listener is
detected in 10 polls the address defaults to IPv4; the first detection wins;
the installed forward type and connect address match the detected or
defaulted address (`v4tov6`/`::1` exactly for an IPv6 loopback); and the
effect sequence deletes the stale v4tov4 and v4tov6 rules for the port
immediately before adding the new rule, which comes last. -/
theorem startChromeOnWindows_spec (port : Nat) (net : Nat → List (List Char)) :
    ((startChromeOnWindows port net).1.count ProxyAct.pollNetstat ≤ 10 ∧
        (startChromeOnWindows port net).1.count ProxyAct.sleep500 =
          (startChromeOnWindows port net).1.count ProxyAct.pollNetstat) ∧
      ((∀ i, i < 10 → netstatScan port (net i) = none) →
        (startChromeOnWindows port net).2 = "127.0.0.1" ∧
          (startChromeOnWindows port net).1.count ProxyAct.pollNetstat = 10) ∧
      (∀ i a, i < 10 → netstatScan port (net i) = some a →
        (∀ j, j < i → netstatScan port (net j) = none) →
        (startChromeOnWindows port net).2 = a) ∧
      (∀ t p c, ProxyAct.addRule t p c ∈ (startChromeOnWindows port net).1 →
        p = port ∧
          (((startChromeOnWindows port net).2 = "::1" ∧ t = "v4tov6" ∧ c = "::1") ∨
            ((startChromeOnWindows port net).2 ≠ "::1" ∧ t = "v4tov4" ∧
              c = "127.0.0.1"))) ∧
      ((startChromeOnWindows port net).1 =
        ProxyAct.deleteRule "v4tov4" port :: ProxyAct.launchChrome ::
          (detectBindGo port net 0 10).1 ++
            [ProxyAct.deleteRule "v4tov4" port, ProxyAct.deleteRule "v4tov6" port,
              ProxyAct.addRule (proxyTypeFor ((startChromeOnWindows port net).2)) port
                (connectAddressFor ((startChromeOnWindows port net).2))] ∧
        ∀ x ∈ (detectBindGo port net 0 10).1,
          x = ProxyAct.sleep500 ∨ x = ProxyAct.pollNetstat) := by
  obtain ⟨hc1, hc2⟩ := startChrome_counts port net
  refine ⟨?_, ?_, ?_, ?_, rfl, detectBindGo_mem port net 0 10⟩
  · obtain ⟨hd1, hd2⟩ := detectBindGo_counts port net 0 10
    rw [hc1, hc2, hd2]
    exact ⟨hd1, rfl⟩
  · intro hall
    obtain ⟨h1, h2⟩ :=
      detectBindGo_all_none port net 0 10 (fun j _ hj2 => hall j (by omega))
    constructor
    · show chromeBindAddress port net = _
      rw [chromeBindAddress, h1]
      rfl
    · rw [hc1, h2]
  · intro i a hi hhit hbefore
    have hdet := detectBindGo_first_hit port net 0 10 i a hi
      (by rw [Nat.zero_add]; exact hhit)
      (fun j hj => by rw [Nat.zero_add]; exact hbefore j hj)
    show chromeBindAddress port net = a
    rw [chromeBindAddress, hdet]
    rfl
  · intro t p c hmem
    simp only [startChromeOnWindows, List.mem_cons, List.mem_append,
      List.mem_singleton] at hmem
    rcases hmem with (h | h | h) | h | h | (h | h)
    · exact ProxyAct.noConfusion h
    · exact ProxyAct.noConfusion h
    · rcases detectBindGo_mem port net 0 10 _ h with h' | h' <;>
        exact ProxyAct.noConfusion h'
    · exact ProxyAct.noConfusion h
    · exact ProxyAct.noConfusion h
    · injection h with h1 h2 h3
      subst h1
      subst h3
      refine ⟨h2, ?_⟩
      by_cases haddr : chromeBindAddress port net = "::1"
      · left
        refine ⟨haddr, ?_, ?_⟩ <;>
          simp [proxyTypeFor, connectAddressFor, haddr]
      · right
        have hbeq : (chromeBindAddress port net == "::1") = false := by
          simpa using haddr
        refine ⟨haddr, ?_, ?_⟩ <;>
          simp [proxyTypeFor, connectAddressFor, hbeq]
    · exact absurd h (List.not_mem_nil _)

/-- Witness for C5 at a concrete input: a netstat snapshot showing an IPv6
loopback listener at poll iteration 2 yields the `::1` bind address. -/
theorem startChromeOnWindows_spec_witness :
    (startChromeOnWindows 9222 (fun i =>
        if i = 2 then ["  TCP    [::1]:9222    LISTENING    4".toList]
        else [])).2 = "::1" :=
  (startChromeOnWindows_spec 9222 (fun i =>
      if i = 2 then ["  TCP    [::1]:9222    LISTENING    4".toList]
      else [])).2.2.1 2 "::1" (by decide) (by decide) (by decide)
